import Mathlib

set_option maxRecDepth 4000

/-
Verification of the Twilio_Agent_With_Barge_In repository core:
shallow embedding of the mu-law codec, the per-connection turn-taking
state machine of src/twilio/webhook.js, the MCP tool layer of
src/mcp/server.js, and the conversation agent of src/livekit/agent.js.
-/

/-! ## Audio codec (src/twilio/webhook.js lines 81-100) -/

/-- PCM16 decode of one mu-law wire byte, translated from mulawToPcm16 in
src/twilio/webhook.js (lines 81-100): uVal = ~b & 0xff, quantization bits
shifted by the segment field with bias 0x84, sign taken from bit 7.
The JS value fits in Int16 (max magnitude 32124), so no wrap occurs. -/
def mulawToPcm16Sample (b : Nat) : Int :=
  let uVal : Nat := 255 - b % 256
  let t0 : Nat := ((uVal &&& 0x0F) <<< 3) + 0x84
  let t1 : Nat := t0 <<< ((uVal &&& 0x70) >>> 4)
  let t2 : Nat := t1 - 0x84
  if uVal &&& 0x80 ≠ 0 then -(t2 : Int) else (t2 : Int)

/-- Buffer-level decode: mulawToPcm16 maps the sample decode over the bytes. -/
def mulawToPcm16 (muBuf : List Nat) : List Int := muBuf.map mulawToPcm16Sample

/-- Modelled from the spec: outbound encoding uses the external mulaw-js encode,
which is not among this repository's sources. The spec states the codec
"implements the standard logarithmic narrow-band codec table", i.e. G.711
mu-law encoding with bias 0x84 and clip 32635. -/
def muLawEncodeSample (v : Int) : Nat :=
  let sign : Nat := if v < 0 then 0x80 else 0
  let m0 : Nat := if v < 0 then (-v).toNat else v.toNat
  let m : Nat := min m0 32635
  let s : Nat := m + 0x84
  let e : Nat :=
    if s < 0x100 then 0 else if s < 0x200 then 1 else if s < 0x400 then 2
    else if s < 0x800 then 3 else if s < 0x1000 then 4 else if s < 0x2000 then 5
    else if s < 0x4000 then 6 else 7
  let mant : Nat := (s >>> (e + 3)) &&& 0x0F
  255 - (sign ||| (e <<< 4) ||| mant)

/-! ## Turn-taking state machine (src/twilio/webhook.js lines 52-334)

Per-connection mutable variables of the webhook (lines 65-75) become the
fields of WebhookState. Node runs the handlers on a single event loop, so
each synchronous run-to-completion segment of the source is one atomic step:
  - the "media" branch of the message handler (lines 256-289),
  - the interval callback together with the synchronous prefix of
    processUtterance up to its first await (lines 194-207 and 304-333),
  - the resumption of processUtterance once STT/LLM/TTS have produced a
    reply: lines 226-237 set aiSpeaking, clear the buffer, synchronously
    send every outbound frame (sendPcm16AsMulaw has no await inside its
    loop), arm the speech-finished timer, and run the finally block,
  - the abort resumption (empty transcript or TTS failure, lines 208-222
    followed by the finally block),
  - the speech-finished timer callback (lines 233-237). -/

/-- SILENCE_MS from line 72. -/
def SILENCE_MS : Nat := 800

/-- MAX_UTTERANCE_MS from line 73. -/
def MAX_UTTERANCE_MS : Nat := 6000

/-- MIN_AUDIO_SAMPLES from line 74. -/
def MIN_AUDIO_SAMPLES : Nat := 4000

/-- BARGE_IN_THRESHOLD from line 75. -/
def BARGE_IN_THRESHOLD : Nat := 3200

/-- The per-connection state of src/twilio/webhook.js lines 65-75.
aiSpeakingTimeout records whether the speech-finished timer handle is
non-null. -/
structure WebhookState where
  pcmBuffer : List (List Int)
  lastMediaAt : Nat
  firstMediaAt : Nat
  processing : Bool
  aiSpeaking : Bool
  aiSpeakingTimeout : Bool
  streamSid : Option String
deriving Repr, DecidableEq

/-- Sample count of the buffer: pcmBuffer.reduce((sum, buf) => sum + buf.length, 0)
(lines 263 and 287). -/
def totalSamples (buf : List (List Int)) : Nat :=
  buf.foldl (fun sum b => sum + b.length) 0

/-- The "media" case of the message handler (lines 256-289). While aiSpeaking,
the frame is pushed and, once the accumulated samples exceed
BARGE_IN_THRESHOLD, the barge-in branch clears aiSpeaking, cancels the
speech-finished timer and restamps both timestamps (lines 260-277).
Otherwise the frame is appended with timestamp bookkeeping (lines 279-288). -/
def handleMedia (st : WebhookState) (pcm16 : List Int) (now : Nat) : WebhookState :=
  if st.aiSpeaking then
    let buf := st.pcmBuffer ++ [pcm16]
    if BARGE_IN_THRESHOLD < totalSamples buf then
      { st with pcmBuffer := buf, aiSpeaking := false, aiSpeakingTimeout := false,
                firstMediaAt := now, lastMediaAt := now }
    else
      { st with pcmBuffer := buf }
  else
    { st with lastMediaAt := now,
              firstMediaAt := if st.firstMediaAt = 0 then now else st.firstMediaAt,
              pcmBuffer := st.pcmBuffer ++ [pcm16] }

/-- The decision of the interval callback (lines 304-333): blocked without a
streamSid or while aiSpeaking; with a non-empty buffer it fires when
silenceDuration > SILENCE_MS, or when firstMediaAt is set and
utteranceDuration > MAX_UTTERANCE_MS (JS firstMediaAt || now and
firstMediaAt && ... both treat 0 as falsy). -/
def silenceCheckFires (st : WebhookState) (now : Nat) : Bool :=
  if st.streamSid.isNone then false
  else if st.aiSpeaking then false
  else if st.pcmBuffer.isEmpty then false
  else
    let silenceDuration := now - st.lastMediaAt
    let utteranceDuration := now - (if st.firstMediaAt = 0 then now else st.firstMediaAt)
    decide (SILENCE_MS < silenceDuration) ||
      (decide (st.firstMediaAt ≠ 0) && decide (MAX_UTTERANCE_MS < utteranceDuration))

/-- What a step of the machine emits: outbound media frames sent over the
socket and an utterance handed to the STT boundary. -/
structure StepOut where
  outFrames : Nat
  sttEmit : Option (List Int)
deriving Repr, DecidableEq

/-- A step that sends nothing. -/
def noOut : StepOut := { outFrames := 0, sttEmit := none }

/-- The synchronous prefix of processUtterance (lines 194-207) up to the first
await: the re-entrancy guard on processing, the buffer grab and clear, and
the MIN_AUDIO_SAMPLES floor. On the short-audio path the function returns
through its finally block (processing stays false, firstMediaAt reset) and
nothing reaches the STT boundary; otherwise processing is set and the
samples are handed to transcription. -/
def processUtterance (st : WebhookState) : WebhookState × StepOut :=
  if st.processing then (st, noOut)
  else
    let samples := st.pcmBuffer.flatten
    let st1 := { st with pcmBuffer := ([] : List (List Int)) }
    if samples.length < MIN_AUDIO_SAMPLES then
      ({ st1 with firstMediaAt := 0 }, noOut)
    else
      ({ st1 with processing := true }, { outFrames := 0, sttEmit := some samples })

/-- Atomic events of the per-connection event loop. speakStart is the
resumption of processUtterance after the pipeline produced TTS audio of
frames outbound frames; procAbort is the resumption on an empty transcript
or TTS failure (both then run the finally block). -/
inductive Ev where
  | start (sid : String)
  | media (pcm16 : List Int) (now : Nat)
  | tick (now : Nat)
  | speakStart (frames : Nat)
  | procAbort
  | speakDone
deriving Repr

/-- One atomic step of the webhook event loop.
start: lines 249-255. media: lines 256-289. tick: lines 304-333 (the
interval calls processUtterance when the check fires). speakStart: lines
226-243 — buffer cleared, aiSpeaking set, every frame of the utterance sent
synchronously by sendPcm16AsMulaw (lines 152-192, no await inside the send
loop), timer armed, finally resets processing and firstMediaAt; only enabled
while a processUtterance is in flight. procAbort: the early returns at lines
208-211 and 219-222 plus the finally block. speakDone: the timer callback at
lines 233-237, enabled only while the timer handle is non-null. -/
def step (st : WebhookState) (ev : Ev) : WebhookState × StepOut :=
  match ev with
  | .start sid => ({ st with streamSid := some sid }, noOut)
  | .media pcm16 now => (handleMedia st pcm16 now, noOut)
  | .tick now =>
      if silenceCheckFires st now then processUtterance st else (st, noOut)
  | .speakStart frames =>
      if st.processing then
        ({ st with pcmBuffer := ([] : List (List Int)), aiSpeaking := true,
                   aiSpeakingTimeout := true, processing := false, firstMediaAt := 0 },
         { outFrames := frames, sttEmit := none })
      else (st, noOut)
  | .procAbort =>
      if st.processing then
        ({ st with processing := false, firstMediaAt := 0 }, noOut)
      else (st, noOut)
  | .speakDone =>
      if st.aiSpeakingTimeout then
        ({ st with aiSpeaking := false, aiSpeakingTimeout := false }, noOut)
      else (st, noOut)

/-- Run a sequence of events, accumulating the number of outbound frames sent
and the utterances handed to the STT boundary. -/
def run : WebhookState → List Ev → WebhookState × Nat × List (List Int)
  | st, [] => (st, 0, [])
  | st, ev :: evs =>
      let p := step st ev
      let r := run p.1 evs
      (r.1, p.2.outFrames + r.2.1, p.2.sttEmit.toList ++ r.2.2)

/-! ## MCP tool layer (src/mcp/server.js) -/

/-- Result record built by the bookAppointment branch of simulateTool
(lines 75-78). -/
structure BookingResult where
  confirmation_id : String
  status : String
deriving Repr, DecidableEq

/-- The bookAppointment case of simulateTool (lines 69-80) against the
in-memory bookingStore (line 37): a stored result for the idempotency key is
returned as is; otherwise a fresh confirmation record (freshRand models the
random suffix of line 76) is stored under the key and returned. -/
def bookAppointment (key freshRand : String) (store : List (String × BookingResult)) :
    BookingResult × List (String × BookingResult) :=
  match store.lookup key with
  | some r => (r, store)
  | none =>
      let r : BookingResult := { confirmation_id := "CONF-" ++ freshRand, status := "booked" }
      (r, (key, r) :: store)

/-- HTTP response of a tool endpoint: 400 with errors on input-schema
failure, 500 with errors on output-schema failure, otherwise the JSON
result. -/
inductive ToolResponse (R : Type) where
  | badRequest (errors : List String)
  | serverError (errors : List String)
  | okJson (result : R)
deriving Repr, DecidableEq

/-- The per-tool POST handler of startMCPServer (src/mcp/server.js lines
17-27), parametric in the ajv-compiled input/output validators (the JSON
schema files are loaded from disk at line 16), in the tool body simulateTool,
and in the mutable store the body may update. Input validation failure
returns 400 before the body runs; output validation is checked on the body
result. -/
def handleToolPost {B R S : Type}
    (validateIn : B → Bool × List String) (validateOut : R → Bool × List String)
    (simulate : B → S → R × S) (body : B) (store : S) : ToolResponse R × S :=
  let vin := validateIn body
  if vin.1 = false then (.badRequest vin.2, store)
  else
    let rs := simulate body store
    let vout := validateOut rs.1
    if vout.1 = false then (.serverError vout.2, rs.2)
    else (.okJson rs.1, rs.2)

/-- JS String.prototype.includes over explicit character lists: sub occurs
contiguously in l. -/
def containsSub (sub : List Char) : List Char → Bool
  | [] => sub.isEmpty
  | a :: t => sub.isPrefixOf (a :: t) || containsSub sub t

/-- Result record of the checkInsuranceCoverage branch (lines 46-50). -/
structure CoverageResult where
  covered : Bool
  copay_estimate : Nat
  notes : String
deriving Repr, DecidableEq

/-- The checkInsuranceCoverage case of simulateTool (lines 41-50): covered
iff the lowercased payer contains "delta", "blue" or "dental"; copay 25 when
covered, 0 otherwise. -/
def checkInsuranceCoverage (payer : String) : CoverageResult :=
  let low := payer.data.map Char.toLower
  let covered := containsSub "delta".data low || containsSub "blue".data low ||
      containsSub "dental".data low
  { covered := covered,
    copay_estimate := if covered then 25 else 0,
    notes := if covered then "Covered under preventive care"
             else "Not in network - cash pay available" }

/-! ## Conversation agent (src/livekit/agent.js) -/

/-- A slot value from the extraction JSON: a string or null (line 96-109 of
the extraction prompt make every field nullable). -/
abbrev SlotVal := Option String

/-- JS object-key write as used by Object.assign: overwrite the entry in
place when the key is present (a JS object holds at most one entry per
key), append it otherwise. -/
def assignKey : List (String × SlotVal) → String → SlotVal → List (String × SlotVal)
  | [], k, v => [(k, v)]
  | kv :: rest, k, v =>
      if kv.1 = k then (k, v) :: rest else kv :: assignKey rest k v

/-- Object.assign(target, source) (line 119): every own key of source is
written into target, left to right, nulls included. -/
def objectAssign (target source : List (String × SlotVal)) : List (String × SlotVal) :=
  source.foldl (fun acc kv => assignKey acc kv.1 kv.2) target

/-- JS property read on the slot object: the value stored under key k. -/
def getKey (m : List (String × SlotVal)) (k : String) : Option SlotVal :=
  match m with
  | [] => none
  | kv :: rest => if kv.1 = k then some kv.2 else getKey rest k

/-- The value of the last entry for key k in an extraction object (the value
Object.assign leaves behind for k). -/
def lastVal (k : String) : List (String × SlotVal) → Option SlotVal
  | [] => none
  | kv :: rest =>
      match lastVal k rest with
      | some v => some v
      | none => if kv.1 = k then some kv.2 else none

/-- One transcript entry {role, text, ts} (lines 60-64 and 74-78). -/
structure TranscriptEntry where
  role : String
  text : String
  ts : String
deriving Repr, DecidableEq

/-- One tool-trace entry (lines 152-157 and 197-206); the output object is
abstracted to the confirmation_id field that saveAudit reads from it. -/
structure ToolTraceEntry where
  tool : String
  ok : Bool
  confirmationId : Option String
deriving Repr, DecidableEq

/-- The per-call fields of ConversationAgent (lines 13-22). -/
structure Agent where
  callId : String
  connected : Bool
  transcript : List TranscriptEntry
  toolTrace : List ToolTraceEntry
  slots : List (String × SlotVal)
  intents : List String
deriving Repr, DecidableEq

/-- The outcome summary of saveAudit (lines 265-269). -/
structure Outcome where
  booked : Bool
  confirmation_id : Option String
  next_steps : String
deriving Repr, DecidableEq

/-- The session record assembled by saveAudit (lines 258-271). -/
structure AuditRecord where
  call_id : String
  transcript : List TranscriptEntry
  intents : List String
  slots : List (String × SlotVal)
  tool_trace : List ToolTraceEntry
  outcome : Outcome
deriving Repr, DecidableEq

/-- auditData as built by saveAudit (lines 259-270). -/
def auditData (a : Agent) : AuditRecord :=
  { call_id := a.callId, transcript := a.transcript, intents := a.intents,
    slots := a.slots, tool_trace := a.toolTrace,
    outcome :=
      { booked := a.intents.contains "book_appointment",
        confirmation_id :=
          (a.toolTrace.find? (fun t => t.tool == "book_appointment")).bind
            (fun t => t.confirmationId),
        next_steps := if a.intents.contains "send_sms" then "SMS sent" else "Pending" } }

/-- saveAudit (lines 258-274): hand the session record to the audit sink
(this.audit.push at line 272); the sink is modelled as the list of records
pushed so far. -/
def saveAudit (a : Agent) (sink : List AuditRecord) : List AuditRecord :=
  sink ++ [auditData a]

/-- handleDisconnect (lines 47-51): clear connected, then saveAudit. -/
def handleDisconnect (a : Agent) (sink : List AuditRecord) : Agent × List AuditRecord :=
  let a1 := { a with connected := false }
  (a1, saveAudit a1 sink)

/-- disconnect (lines 279-290): when connected, handleDisconnect (which
already calls saveAudit), then an unconditional saveAudit. -/
def disconnect (a : Agent) (sink : List AuditRecord) : Agent × List AuditRecord :=
  let p := if a.connected then handleDisconnect a sink else (a, sink)
  (p.1, saveAudit p.1 p.2)

/-- The slot merge step of extractSlotsAndCallTools (line 119):
Object.assign(this.slots, extracted). -/
def mergeSlots (a : Agent) (extracted : List (String × SlotVal)) : Agent :=
  { a with slots := objectAssign a.slots extracted }

/-! ## Theorems -/

/-- C9: for every wire byte, decoding and re-encoding reproduces a byte that
decodes to the same PCM value (the codec quantization), and reproduces the
original byte itself for every byte except 0x7F, the negative-zero alias of
0xFF inherent to the mu-law table. -/
theorem mulaw_roundtrip :
    ∀ b : Fin 256,
      mulawToPcm16Sample (muLawEncodeSample (mulawToPcm16Sample b.val))
          = mulawToPcm16Sample b.val ∧
      (b.val ≠ 0x7F → muLawEncodeSample (mulawToPcm16Sample b.val) = b.val) := by
  decide

/-- Witness for C9 at byte 0. -/
theorem mulaw_roundtrip_witness :
    mulawToPcm16Sample (muLawEncodeSample (mulawToPcm16Sample (0 : Fin 256).val))
        = mulawToPcm16Sample (0 : Fin 256).val ∧
    muLawEncodeSample (mulawToPcm16Sample (0 : Fin 256).val) = (0 : Fin 256).val :=
  ⟨(mulaw_roundtrip 0).1, (mulaw_roundtrip 0).2 (by decide)⟩

/-- handleMedia never touches the processing flag. -/
theorem handleMedia_processing (st : WebhookState) (pcm16 : List Int) (now : Nat) :
    (handleMedia st pcm16 now).processing = st.processing := by
  unfold handleMedia
  split
  · dsimp only
    split <;> rfl
  · rfl

/-- From a state that is not processing, a step sends no outbound frames,
and if it hands nothing to the STT boundary the next state is not
processing either. -/
theorem step_silent (st : WebhookState) (ev : Ev) (hp : st.processing = false) :
    (step st ev).2.outFrames = 0 ∧
      ((step st ev).2.sttEmit = none → (step st ev).1.processing = false) := by
  cases ev with
  | start sid => simp [step, noOut, hp]
  | media pcm16 now => simp [step, noOut, handleMedia_processing, hp]
  | tick now =>
      simp only [step]
      split
      · unfold processUtterance
        rw [hp]
        simp only [Bool.false_eq_true, if_false]
        split
        · simp [noOut, hp]
        · simp
      · simp [noOut, hp]
  | speakStart frames => simp [step, noOut, hp]
  | procAbort => simp [step, noOut, hp]
  | speakDone =>
      simp only [step]
      split <;> simp [noOut, hp]

/-- From a state that is not processing, a run that hands nothing to the STT
boundary sends no outbound frames at all. -/
theorem run_no_frames (evs : List Ev) :
    ∀ st : WebhookState, st.processing = false →
      (run st evs).2.2 = [] → (run st evs).2.1 = 0 := by
  induction evs with
  | nil => intro st _ _; simp [run]
  | cons ev rest ih =>
      intro st hp h
      simp only [run] at h ⊢
      have h3 : (step st ev).2.sttEmit.toList = [] := (List.append_eq_nil.mp h).1
      have h4 : (run (step st ev).1 rest).2.2 = [] := (List.append_eq_nil.mp h).2
      have hnone : (step st ev).2.sttEmit = none := by
        cases hse : (step st ev).2.sttEmit with
        | none => rfl
        | some v => rw [hse] at h3; simp at h3
      obtain ⟨hf, himp⟩ := step_silent st ev hp
      rw [hf, ih (step st ev).1 (himp hnone) h4]

/-- C1: in the speaking state, the frame whose arrival pushes the
accumulated inbound audio past BARGE_IN_THRESHOLD triggers barge-in: that
step sends no outbound frame, clears the speaking flag (state returns to
listening) and the pending speech-finished timer, keeps the triggering
frames as the start of the next utterance buffer, and from the resulting
state no outbound frame is ever sent again until a new utterance is handed
to the STT boundary. -/
theorem barge_in_cancels_and_preserves (st : WebhookState) (pcm16 : List Int) (now : Nat)
    (hSpeak : st.aiSpeaking = true) (hProc : st.processing = false)
    (hOver : BARGE_IN_THRESHOLD < totalSamples (st.pcmBuffer ++ [pcm16])) :
    (step st (.media pcm16 now)).2.outFrames = 0 ∧
    (step st (.media pcm16 now)).1.aiSpeaking = false ∧
    (step st (.media pcm16 now)).1.aiSpeakingTimeout = false ∧
    (step st (.media pcm16 now)).1.pcmBuffer = st.pcmBuffer ++ [pcm16] ∧
    (∀ evs : List Ev,
      (run (step st (.media pcm16 now)).1 evs).2.2 = [] →
      (run (step st (.media pcm16 now)).1 evs).2.1 = 0) := by
  have hm : handleMedia st pcm16 now =
      { st with pcmBuffer := st.pcmBuffer ++ [pcm16], aiSpeaking := false,
                aiSpeakingTimeout := false, firstMediaAt := now, lastMediaAt := now } := by
    unfold handleMedia
    rw [hSpeak]
    simp only [if_true]
    rw [if_pos hOver]
  refine ⟨rfl, ?_, ?_, ?_, ?_⟩
  · simp [step, hm]
  · simp [step, hm]
  · simp [step, hm]
  · intro evs
    apply run_no_frames
    simp [step, hm, hProc]

/-- Witness for C1: a speaking state holding 3201 buffered samples receives
one more frame. -/
theorem barge_in_cancels_and_preserves_witness :
    (step (WebhookState.mk [List.replicate 3201 (0 : Int)] 5 5 false true true
        (some "MZ")) (.media [0] 7)).2.outFrames = 0 ∧
    (step (WebhookState.mk [List.replicate 3201 (0 : Int)] 5 5 false true true
        (some "MZ")) (.media [0] 7)).1.aiSpeaking = false ∧
    (step (WebhookState.mk [List.replicate 3201 (0 : Int)] 5 5 false true true
        (some "MZ")) (.media [0] 7)).1.aiSpeakingTimeout = false ∧
    (step (WebhookState.mk [List.replicate 3201 (0 : Int)] 5 5 false true true
        (some "MZ")) (.media [0] 7)).1.pcmBuffer
        = [List.replicate 3201 (0 : Int)] ++ [[0]] ∧
    (∀ evs : List Ev,
      (run (step (WebhookState.mk [List.replicate 3201 (0 : Int)] 5 5 false true true
          (some "MZ")) (.media [0] 7)).1 evs).2.2 = [] →
      (run (step (WebhookState.mk [List.replicate 3201 (0 : Int)] 5 5 false true true
          (some "MZ")) (.media [0] 7)).1 evs).2.1 = 0) :=
  barge_in_cancels_and_preserves _ [0] 7 rfl rfl (by
    simp only [totalSamples, List.cons_append, List.nil_append, List.foldl_cons,
      List.foldl_nil, List.length_replicate, List.length_cons, List.length_nil,
      BARGE_IN_THRESHOLD]
    norm_num)

/-- C2: with a live stream, not speaking, a non-empty buffer and an utterance
start recorded, the interval check fires exactly when the silence gap
exceeds SILENCE_MS or the utterance span exceeds MAX_UTTERANCE_MS; and when
it fires on a buffer holding fewer than MIN_AUDIO_SAMPLES samples, the
buffer is discarded and nothing is handed to the STT boundary. -/
theorem turn_finalization_iff_and_min_floor (st : WebhookState) (now : Nat)
    (hSid : st.streamSid.isNone = false) (hSpk : st.aiSpeaking = false)
    (hBuf : st.pcmBuffer.isEmpty = false) (hFirst : st.firstMediaAt ≠ 0)
    (hProc : st.processing = false) :
    (silenceCheckFires st now = true ↔
       (SILENCE_MS < now - st.lastMediaAt ∨ MAX_UTTERANCE_MS < now - st.firstMediaAt)) ∧
    (st.pcmBuffer.flatten.length < MIN_AUDIO_SAMPLES →
       silenceCheckFires st now = true →
       (step st (.tick now)).1.pcmBuffer = [] ∧
       (step st (.tick now)).2.sttEmit = none ∧
       (step st (.tick now)).2.outFrames = 0) := by
  constructor
  · simp [silenceCheckFires, hSid, hSpk, hBuf, hFirst]
  · intro hMin hFires
    simp only [step, hFires, if_true]
    unfold processUtterance
    rw [hProc]
    simp only [Bool.false_eq_true, if_false]
    rw [if_pos hMin]
    exact ⟨rfl, rfl, rfl⟩

/-- Witness for C2: one 1-sample chunk, silent for 999 ms. -/
theorem turn_finalization_iff_and_min_floor_witness :
    (silenceCheckFires (WebhookState.mk [[0]] 1 1 false false false (some "MZ")) 1000
        = true ↔
      (SILENCE_MS < 1000 - 1 ∨ MAX_UTTERANCE_MS < 1000 - 1)) ∧
    (((WebhookState.mk [[(0 : Int)]] 1 1 false false false (some "MZ")).pcmBuffer.flatten.length
        < MIN_AUDIO_SAMPLES →
      silenceCheckFires (WebhookState.mk [[0]] 1 1 false false false (some "MZ")) 1000
          = true →
      (step (WebhookState.mk [[0]] 1 1 false false false (some "MZ")) (.tick 1000)).1.pcmBuffer
          = [] ∧
      (step (WebhookState.mk [[0]] 1 1 false false false (some "MZ")) (.tick 1000)).2.sttEmit
          = none ∧
      (step (WebhookState.mk [[0]] 1 1 false false false (some "MZ")) (.tick 1000)).2.outFrames
          = 0)) :=
  turn_finalization_iff_and_min_floor
    (WebhookState.mk [[0]] 1 1 false false false (some "MZ")) 1000
    rfl rfl rfl (by decide) rfl

/-- C5 counterexample: the claim that every inbound media frame is dropped
while the session is thinking (processing set, not speaking) is false on the
code: the media handler never consults the processing flag, so the frame is
appended to the active utterance buffer. -/
theorem thinking_drops_frames_cx :
    ¬ (∀ (st : WebhookState) (pcm16 : List Int) (now : Nat),
        st.processing = true → st.aiSpeaking = false →
        (step st (.media pcm16 now)).1.pcmBuffer = st.pcmBuffer) := by
  intro h
  have := h (WebhookState.mk [] 0 0 true false false (some "MZ")) [0] 5 rfl rfl
  simp [step, handleMedia] at this

/-- C5 amended: while the session is thinking, an inbound media frame is
appended to the active utterance buffer (not dropped); the buffer is cleared
only at the later step where the synthesized reply is ready and speaking
begins. -/
theorem thinking_buffers_frames_until_speech (st : WebhookState) (pcm16 : List Int)
    (now frames : Nat) (hProc : st.processing = true) (hSpk : st.aiSpeaking = false) :
    (step st (.media pcm16 now)).1.pcmBuffer = st.pcmBuffer ++ [pcm16] ∧
    (step st (.speakStart frames)).1.pcmBuffer = [] := by
  constructor
  · simp [step, handleMedia, hSpk]
  · simp [step, hProc]

/-- Witness for C5 amended: a thinking state with one buffered chunk
receives a frame, then speaking starts. -/
theorem thinking_buffers_frames_until_speech_witness :
    (step (WebhookState.mk [[1]] 3 3 true false false (some "MZ"))
        (.media [2] 5)).1.pcmBuffer = [[1]] ++ [[2]] ∧
    (step (WebhookState.mk [[1]] 3 3 true false false (some "MZ"))
        (.speakStart 10)).1.pcmBuffer = [] :=
  thinking_buffers_frames_until_speech
    (WebhookState.mk [[1]] 3 3 true false false (some "MZ")) [2] 5 10 rfl rfl

/-- C6 counterexample: the claim that the frames received during speaking are
discarded when speech ends naturally is false on the code: the
speech-finished timer callback clears only the flags and leaves the buffer
as it is. -/
theorem natural_end_discards_cx :
    ¬ (∀ st : WebhookState, st.aiSpeaking = true → st.aiSpeakingTimeout = true →
        (step st .speakDone).1.pcmBuffer = []) := by
  intro h
  have := h (WebhookState.mk [[0]] 0 0 false true true (some "MZ")) rfl rfl
  simp [step] at this

/-- C6 amended: when the speech-finished timer fires, the callback only
resets the speaking flag and the timer handle; the frames accumulated during
speaking are kept in the utterance buffer and so seed the next utterance
instead of being discarded. -/
theorem natural_end_keeps_interrupt_buffer (st : WebhookState)
    (hT : st.aiSpeakingTimeout = true) :
    (step st .speakDone).1.aiSpeaking = false ∧
    (step st .speakDone).1.aiSpeakingTimeout = false ∧
    (step st .speakDone).1.pcmBuffer = st.pcmBuffer ∧
    (step st .speakDone).2 = noOut := by
  refine ⟨?_, ?_, ?_, ?_⟩ <;> simp [step, hT]

/-- Witness for C6 amended: a speaking state with one sub-threshold chunk
whose timer fires. -/
theorem natural_end_keeps_interrupt_buffer_witness :
    (step (WebhookState.mk [[0]] 0 0 false true true (some "MZ")) .speakDone).1.aiSpeaking
        = false ∧
    (step (WebhookState.mk [[0]] 0 0 false true true (some "MZ")) .speakDone).1.aiSpeakingTimeout
        = false ∧
    (step (WebhookState.mk [[0]] 0 0 false true true (some "MZ")) .speakDone).1.pcmBuffer
        = [[0]] ∧
    (step (WebhookState.mk [[0]] 0 0 false true true (some "MZ")) .speakDone).2 = noOut :=
  natural_end_keeps_interrupt_buffer
    (WebhookState.mk [[0]] 0 0 false true true (some "MZ")) rfl

/-- C3: booking twice with the same idempotency key returns the same result
both times, leaves the store unchanged after the first call, stores exactly
the first result under the key, and any repeated call against a store
already holding the key returns the stored result with no new side effect. -/
theorem bookAppointment_idempotent (key f1 f2 : String)
    (store : List (String × BookingResult)) :
    (bookAppointment key f2 (bookAppointment key f1 store).2).1
        = (bookAppointment key f1 store).1 ∧
    (bookAppointment key f2 (bookAppointment key f1 store).2).2
        = (bookAppointment key f1 store).2 ∧
    (bookAppointment key f1 store).2.lookup key = some (bookAppointment key f1 store).1 ∧
    (∀ (s : List (String × BookingResult)) (r : BookingResult) (f : String),
        s.lookup key = some r → bookAppointment key f s = (r, s)) := by
  have hrep : ∀ (s : List (String × BookingResult)) (r : BookingResult) (f : String),
      s.lookup key = some r → bookAppointment key f s = (r, s) := by
    intro s r f h
    unfold bookAppointment
    rw [h]
  have hstored : (bookAppointment key f1 store).2.lookup key
      = some (bookAppointment key f1 store).1 := by
    cases h : store.lookup key with
    | some r => simp [bookAppointment, h]
    | none => simp [bookAppointment, h, List.lookup]
  refine ⟨?_, ?_, hstored, hrep⟩
  · rw [hrep _ _ f2 hstored]
  · rw [hrep _ _ f2 hstored]

/-- Witness for C3: a repeated call with key k1 returns the stored record
and does not touch the store. -/
theorem bookAppointment_idempotent_witness :
    bookAppointment "k1" "ZZZZ" [("k1", BookingResult.mk "CONF-AAAA" "booked")]
      = (BookingResult.mk "CONF-AAAA" "booked",
         [("k1", BookingResult.mk "CONF-AAAA" "booked")]) :=
  (bookAppointment_idempotent "k1" "x" "y" []).2.2.2
    [("k1", BookingResult.mk "CONF-AAAA" "booked")]
    (BookingResult.mk "CONF-AAAA" "booked") "ZZZZ" (by simp [List.lookup])

/-- C7: when the input-schema validation of a tool endpoint fails, the
handler answers 400 with the structured errors, the store is unchanged, and
the tool body is never executed: the response and store are the same
whatever body and output validator the endpoint was built with. -/
theorem schema_rejects_before_side_effect {B R S : Type}
    (validateIn : B → Bool × List String) (validateOut : R → Bool × List String)
    (simulate : B → S → R × S) (body : B) (store : S)
    (h : (validateIn body).1 = false) :
    handleToolPost validateIn validateOut simulate body store
        = (.badRequest (validateIn body).2, store) ∧
    (∀ (validateOut2 : R → Bool × List String) (simulate2 : B → S → R × S),
        handleToolPost validateIn validateOut2 simulate2 body store
          = (.badRequest (validateIn body).2, store)) := by
  have g : ∀ (vo : R → Bool × List String) (si : B → S → R × S),
      handleToolPost validateIn vo si body store
        = (.badRequest (validateIn body).2, store) := by
    intro vo si
    simp [handleToolPost, h]
  exact ⟨g _ _, fun vo si => g vo si⟩

/-- Witness for C7: a bookAppointment endpoint whose input validation
rejects the empty body never runs the booking body, so the booking store
stays empty. -/
theorem schema_rejects_before_side_effect_witness :
    handleToolPost
        (fun _ : String => (false, ["missing required field: idempotency_key"]))
        (fun _ : BookingResult => (true, []))
        (fun b store => bookAppointment b "RAND" store) ""
        ([] : List (String × BookingResult))
      = (.badRequest ["missing required field: idempotency_key"], []) ∧
    (∀ (validateOut2 : BookingResult → Bool × List String)
        (simulate2 : String → List (String × BookingResult) →
          BookingResult × List (String × BookingResult)),
        handleToolPost
            (fun _ : String => (false, ["missing required field: idempotency_key"]))
            validateOut2 simulate2 "" ([] : List (String × BookingResult))
          = (.badRequest ["missing required field: idempotency_key"], [])) :=
  schema_rejects_before_side_effect _ _ _ "" [] rfl

/-- A JS key write is read back as written, and leaves other keys alone. -/
theorem getKey_assignKey (m : List (String × SlotVal)) (k k2 : String) (v : SlotVal) :
    getKey (assignKey m k v) k2 = if k2 = k then some v else getKey m k2 := by
  induction m with
  | nil =>
      by_cases h : k2 = k
      · subst h; simp [assignKey, getKey]
      · simp [assignKey, getKey, h, Ne.symm h]
  | cons a t ih =>
      by_cases ha : a.1 = k
      · by_cases h : k2 = k
        · subst h; simp [assignKey, getKey, ha]
        · have h2 : k ≠ k2 := Ne.symm h
          have h3 : a.1 ≠ k2 := by rw [ha]; exact h2
          simp [assignKey, getKey, ha, h, h2, h3]
      · by_cases h : k2 = k
        · subst h
          have h3 : a.1 ≠ k2 := ha
          simp [assignKey, getKey, ha, h3, ih]
        · by_cases hb : a.1 = k2
          · simp [assignKey, getKey, ha, hb, h]
          · simp [assignKey, getKey, ha, hb, h, ih]

/-- Object.assign semantics on reads: the last write of a key in the source
object wins; keys the source never writes keep their target value. -/
theorem getKey_objectAssign (k : String) :
    ∀ (source target : List (String × SlotVal)),
      getKey (objectAssign target source) k =
        match lastVal k source with
        | some v => some v
        | none => getKey target k := by
  intro source
  induction source with
  | nil => intro target; rfl
  | cons kv rest ih =>
      intro target
      have hfold : objectAssign target (kv :: rest)
          = objectAssign (assignKey target kv.1 kv.2) rest := rfl
      rw [hfold, ih]
      cases hl : lastVal k rest with
      | some v => simp [lastVal, hl]
      | none =>
          simp only [lastVal, hl]
          rw [getKey_assignKey]
          by_cases hk : kv.1 = k
          · simp [hk]
          · simp [hk, Ne.symm hk]

/-- C4 counterexample: the slot mapping is not monotone in non-nullness: a
turn whose extraction yields null for an already-populated slot resets that
slot to null, because Object.assign copies null values too. -/
theorem slot_null_reset_cx :
    ¬ (∀ (a : Agent) (extracted : List (String × SlotVal)) (k s : String),
        getKey a.slots k = some (some s) →
        getKey (mergeSlots a extracted).slots k ≠ some none) := by
  intro h
  exact h (Agent.mk "c1" true [] [] [("patient_first", some "Maya")] [])
      [("patient_first", none)] "patient_first" "Maya" (by simp [getKey])
      (by simp [mergeSlots, objectAssign, assignKey, getKey])

/-- C4 amended: the merge at line 119 is an unconditional Object.assign, so
the slot mapping is last-write-wins rather than monotone in non-nullness:
after a merge, each slot the extraction wrote holds the last value the
extraction gave it — null included, even if the slot was already populated
with a non-null value. -/
theorem slot_merge_last_write_wins (a : Agent) (extracted : List (String × SlotVal))
    (k : String) (v : SlotVal) (h : lastVal k extracted = some v) :
    getKey (mergeSlots a extracted).slots k = some v := by
  have := getKey_objectAssign k extracted a.slots
  simp only [mergeSlots] at *
  rw [this, h]

/-- Witness for C4 amended: a populated patient_first slot is reset to null
by an extraction that yields null for it. -/
theorem slot_merge_last_write_wins_witness :
    getKey (mergeSlots (Agent.mk "c1" true [] [] [("patient_first", some "Maya")] [])
        [("patient_first", none)]).slots "patient_first" = some none :=
  slot_merge_last_write_wins
    (Agent.mk "c1" true [] [] [("patient_first", some "Maya")] [])
    [("patient_first", none)] "patient_first" none (by simp [lastVal])

/-- C8: the code contradicts the exactly-once audit hand-off: disconnect on
a connected agent (the normal teardown path) pushes the session record to
the audit sink twice — once through handleDisconnect and once directly. -/
theorem disconnect_double_audit (a : Agent) (sink : List AuditRecord)
    (h : a.connected = true) :
    ((disconnect a sink).2).length = sink.length + 2 := by
  simp [disconnect, handleDisconnect, saveAudit, h]

/-- Witness for C8: a freshly connected agent torn down over an empty sink
leaves two pushed records. -/
theorem disconnect_double_audit_witness :
    ((disconnect (Agent.mk "c1" true [] [] [] []) []).2).length
        = ([] : List AuditRecord).length + 2 :=
  disconnect_double_audit (Agent.mk "c1" true [] [] [] []) [] rfl

/-- List.isPrefixOf agrees with the existence of a completing tail. -/
theorem isPrefixOf_eq_true_iff (s : List Char) :
    ∀ l : List Char, s.isPrefixOf l = true ↔ ∃ r, l = s ++ r := by
  induction s with
  | nil => intro l; simp [List.isPrefixOf]
  | cons a t ih =>
      intro l
      cases l with
      | nil =>
          simp [List.isPrefixOf]
      | cons b u =>
          simp only [List.isPrefixOf, Bool.and_eq_true, beq_iff_eq, List.cons_append,
            List.cons.injEq]
          constructor
          · rintro ⟨hab, hpre⟩
            obtain ⟨r, hr⟩ := (ih u).mp hpre
            exact ⟨r, hab.symm, hr⟩
          · rintro ⟨r, hba, hur⟩
            exact ⟨hba.symm, (ih u).mpr ⟨r, hur⟩⟩

/-- containsSub agrees with contiguous-substring occurrence. -/
theorem containsSub_eq_true_iff (sub : List Char) :
    ∀ l : List Char, containsSub sub l = true ↔ ∃ p q, l = p ++ sub ++ q := by
  intro l
  induction l with
  | nil =>
      simp only [containsSub, List.isEmpty_iff]
      constructor
      · intro h
        exact ⟨[], [], by simp [h]⟩
      · rintro ⟨p, q, hp⟩
        have := List.append_eq_nil.mp hp.symm
        exact (List.append_eq_nil.mp this.1).2
  | cons a t ih =>
      simp only [containsSub, Bool.or_eq_true, ih, isPrefixOf_eq_true_iff]
      constructor
      · rintro (⟨r, hr⟩ | ⟨p, q, hp⟩)
        · exact ⟨[], r, by simpa using hr⟩
        · exact ⟨a :: p, q, by rw [hp]; rfl⟩
      · rintro ⟨p, q, hp⟩
        cases p with
        | nil => exact Or.inl ⟨q, by simpa using hp⟩
        | cons x p2 =>
            right
            rw [List.cons_append, List.cons_append] at hp
            injection hp with h1 h2
            exact ⟨p2, q, h2⟩

/-- C10: checkInsuranceCoverage reports covered exactly when the lowercased
payer contains "delta", "blue" or "dental" as a contiguous substring, and
the copay estimate is 25 when covered and 0 otherwise. -/
theorem checkInsuranceCoverage_spec (payer : String) :
    ((checkInsuranceCoverage payer).covered = true ↔
        (∃ p q, payer.data.map Char.toLower = p ++ "delta".data ++ q) ∨
        (∃ p q, payer.data.map Char.toLower = p ++ "blue".data ++ q) ∨
        (∃ p q, payer.data.map Char.toLower = p ++ "dental".data ++ q)) ∧
    (checkInsuranceCoverage payer).copay_estimate
        = (if (checkInsuranceCoverage payer).covered = true then 25 else 0) := by
  constructor
  · simp only [checkInsuranceCoverage, Bool.or_eq_true, containsSub_eq_true_iff]
    exact or_assoc
  · simp only [checkInsuranceCoverage]
